import Mathlib

/-!
Verification of the residue-grouping and parsing core of the eltetrado
repository (src/eltetrado/structure.py and src/eltetrado/cli.py), via a
shallow embedding in Lean 4.

Conventions of the embedding:
* Python exceptions are modelled by the `PyErr` type and fallible code
  returns `Except PyErr _`.
* Python `int(...)` on strings is modelled by `pyInt?`; Python `float(...)`
  is modelled by `pyFloat?` returning exact decimal values in canonical
  form (plain decimal literals, the only shape occurring in coordinate
  fields; exponent forms are out of scope of the claims).
* Python string slicing `s[a:b]` (clamping) is `pySlice`, indexing `s[i]`
  (raising IndexError) is `pyAt`, and `str.strip()` is `pyStrip`.
* Python dicts keyed by `Union[ResidueLabel, ResidueAuth]` values that may
  also be `None` are modelled by association lists over
  `Option (ResidueLabel ⊕ ResidueAuth)` where lookup returns the most
  recent binding, matching dict overwrite semantics.
-/

/-- Python exception kinds observable in the embedded code. -/
inductive PyErr where
  | typeError
  | valueError
  | keyError
  | indexError
  | attributeError
  | runtimeError (msg : String)
deriving DecidableEq, Repr

deriving instance DecidableEq for Except

/-- Python whitespace characters stripped by str.strip(). -/
def isPyWs (c : Char) : Bool :=
  c = ' ' || c = '\t' || c = '\n' || c = '\r' || c = '\x0b' || c = '\x0c'

/-- Python str.lower() for the ASCII strings occurring here: lowercase
each character. -/
def pyLower (s : String) : String :=
  String.mk (s.data.map Char.toLower)

/-- Python str.strip(): drop leading and trailing whitespace. -/
def pyStrip (s : String) : String :=
  String.mk (((s.data.dropWhile isPyWs).reverse.dropWhile isPyWs).reverse)

/-- Python slice s[a:b] with clamping semantics (nonnegative indices). -/
def pySlice (s : String) (a b : Nat) : String :=
  String.mk ((s.data.drop a).take (b - a))

/-- Python indexing s[i]: the character, or IndexError when out of range. -/
def pyAt (s : String) (i : Nat) : Except PyErr Char :=
  match s.data.get? i with
  | some c => .ok c
  | none => .error .indexError

/-- Python s.startswith(p), computed over the character list. -/
def strStarts (s p : String) : Bool :=
  p.data.isPrefixOf s.data

/-- Python s.split(sep) for a single-character separator: accumulate the
current piece and cut at each separator; the empty string yields one empty
piece, as in Python. -/
def pySplitAux (sep : Char) : List Char → List Char → List (List Char)
  | [], acc => [acc.reverse]
  | c :: rest, acc =>
    if c = sep then acc.reverse :: pySplitAux sep rest []
    else pySplitAux sep rest (c :: acc)

/-- Python s.split(sep) over strings. -/
def pySplitStr (sep : Char) (s : String) : List String :=
  (pySplitAux sep s.data []).map String.mk

/-- Numeric value of a digit list (most significant first). -/
def digitsVal (cs : List Char) : Nat :=
  cs.foldl (fun a c => a * 10 + (c.toNat - 48)) 0

/-- Whether every character is an ASCII digit and the list is nonempty. -/
def allDigits1 (cs : List Char) : Bool :=
  !cs.isEmpty && cs.all Char.isDigit

/-- Python int(s) on a string: optional sign around a nonempty digit run
after stripping whitespace; `none` models a ValueError. -/
def pyInt? (s : String) : Option Int :=
  match (pyStrip s).data with
  | '+' :: rest => if allDigits1 rest then some (digitsVal rest : Int) else none
  | '-' :: rest => if allDigits1 rest then some (-(digitsVal rest : Int)) else none
  | cs => if allDigits1 cs then some (digitsVal cs : Int) else none

/-- An exact decimal value mant / 10 ^ fdigits in canonical form (no
trailing zero digit in the fraction), the embedding of a parsed coordinate;
two equal decimal literals parse to the same canonical value. -/
structure PyFloat where
  mant : Int
  fdigits : Nat
deriving DecidableEq, Repr

/-- Drop trailing zero digits of a fraction digit list. -/
def stripTrailingZeros (cs : List Char) : List Char :=
  (cs.reverse.dropWhile (fun c => c = '0')).reverse

/-- Unsigned decimal literal (digits, optional point, digits) as a
canonical exact decimal value. -/
def pyFloatCore? (cs : List Char) : Option PyFloat :=
  let ip := cs.takeWhile (fun c => c ≠ '.')
  match cs.dropWhile (fun c => c ≠ '.') with
  | [] => if allDigits1 ip then some ⟨(digitsVal ip : Int), 0⟩ else none
  | _ :: fp =>
    if fp.any (fun c => c = '.') then none
    else if (!ip.isEmpty || !fp.isEmpty) && ip.all Char.isDigit && fp.all Char.isDigit then
      let fp2 := stripTrailingZeros fp
      some ⟨(digitsVal ip * 10 ^ fp2.length + digitsVal fp2 : Int), fp2.length⟩
    else none

/-- Python float(s) restricted to plain signed decimal literals; `none`
models a ValueError. -/
def pyFloat? (s : String) : Option PyFloat :=
  match (pyStrip s).data with
  | '+' :: rest => pyFloatCore? rest
  | '-' :: rest => (pyFloatCore? rest).map (fun q => ⟨-q.mant, q.fdigits⟩)
  | cs => pyFloatCore? cs

/-- Python int(s) raising ValueError on failure. -/
def pyIntE (s : String) : Except PyErr Int :=
  match pyInt? s with
  | some n => .ok n
  | none => .error .valueError

/-- Python float(s) raising ValueError on failure. -/
def pyFloatE (s : String) : Except PyErr PyFloat :=
  match pyFloat? s with
  | some q => .ok q
  | none => .error .valueError

/-- Modelled from the spec: the label identifier scheme of eltetrado.model
(chain, sequence number, residue name), a plain record with fieldwise
equality, as used by structure.py. -/
structure ResidueLabel where
  chain : String
  number : Int
  name : String
deriving DecidableEq, Repr

/-- Modelled from the spec: the auth identifier scheme of eltetrado.model
(chain, sequence number, insertion code, residue name), a plain record with
fieldwise equality, as used by structure.py. -/
structure ResidueAuth where
  chain : String
  number : Int
  icode : String
  name : String
deriving DecidableEq, Repr

/-- Modelled from the spec: an atom of eltetrado.model with two optional
identifier schemes, model number, atom name and coordinates (coordinates as
canonical exact decimals). Fieldwise equality, as frozenset membership
requires. -/
structure Atom3D where
  label : Option ResidueLabel
  auth : Option ResidueAuth
  model : Int
  atomName : String
  x : PyFloat
  y : PyFloat
  z : PyFloat
deriving DecidableEq, Repr

/-- Modelled from the spec: a residue of eltetrado.model: 1-based global
index, resolved name, model number, optional identifiers and the frozenset
of its atoms (a `Finset`). -/
structure Residue3D where
  index : Nat
  name : String
  model : Int
  label : Option ResidueLabel
  auth : Option ResidueAuth
  atoms : Finset Atom3D
deriving DecidableEq

/-- Modelled from the spec: the 3D structure of eltetrado.model, an ordered
residue sequence. -/
structure Structure3D where
  residues : List Residue3D
deriving DecidableEq

/-- Key type of the Python modification dict: a ResidueLabel, a ResidueAuth,
or Python None (absent identifiers are stored as dict key None by the code). -/
abbrev ModKey := Option (ResidueLabel ⊕ ResidueAuth)

/-- The modification table: association list with dict overwrite semantics
(lookup returns the most recent binding). -/
abbrev ModDict := List (ModKey × String)

/-- Dict lookup: value of the most recently inserted binding of the key. -/
def dictGet (d : ModDict) (k : ModKey) : Option String :=
  (d.reverse.find? (fun p => decide (p.1 = k))).map (fun p => p.2)

/-- Dict insertion modelled by appending; `dictGet` prefers later bindings. -/
def dictInsert (d : ModDict) (k : ModKey) (v : String) : ModDict :=
  d ++ [(k, v)]

/-- Dict key of an optional auth identifier as used by the Python code
(Python None stays None). -/
def authKey (auth : Option ResidueAuth) : ModKey :=
  auth.map Sum.inr

/-- Dict key of an optional label identifier as used by the Python code. -/
def labelKey (label : Option ResidueLabel) : ModKey :=
  label.map Sum.inl

/-- Embedding of get_residue_name (structure.py lines 178-190): auth-keyed
modification entry (lowercased), else label-keyed entry (lowercased), else
auth name, else label name, else the unknown-nucleotide marker. -/
def get_residue_name (auth : Option ResidueAuth) (label : Option ResidueLabel)
    (modified : ModDict) : String :=
  match dictGet modified (authKey auth) with
  | some v => pyLower v
  | none =>
    match dictGet modified (labelKey label) with
    | some v => pyLower v
    | none =>
      match auth with
      | some a => a.name
      | none =>
        match label with
        | some l => l.name
        | none => "n"

/-- The grouping key of an atom as used by group_atoms: (label, auth, model). -/
def atomKey (a : Atom3D) : Option ResidueLabel × Option ResidueAuth × Int :=
  (a.label, a.auth, a.model)

/-- Build one residue from a closed run of atoms, as done at structure.py
lines 161-165 and 170-174 (frozenset of the accumulated atoms). -/
def mkResidue (modified : ModDict) (index : Nat)
    (key : Option ResidueLabel × Option ResidueAuth × Int)
    (residueAtoms : List Atom3D) : Residue3D :=
  ⟨index, get_residue_name key.2.1 key.1 modified, key.2.2, key.1, key.2.1,
    residueAtoms.toFinset⟩

/-- Embedding of the loop of group_atoms (structure.py lines 156-174):
state is the running key, the accumulated atoms of the current residue, the
closed residues, and the next index. -/
def groupAtomsLoop (modified : ModDict) :
    Option ResidueLabel × Option ResidueAuth × Int → List Atom3D →
    List Residue3D → Nat → List Atom3D → List Residue3D
  | keyPrev, residueAtoms, residues, index, [] =>
    residues ++ [mkResidue modified index keyPrev residueAtoms]
  | keyPrev, residueAtoms, residues, index, atom :: rest =>
    if atomKey atom = keyPrev then
      groupAtomsLoop modified keyPrev (residueAtoms ++ [atom]) residues index rest
    else
      groupAtomsLoop modified (atomKey atom) [atom]
        (residues ++ [mkResidue modified index keyPrev residueAtoms]) (index + 1) rest

/-- Embedding of group_atoms (structure.py lines 147-175). -/
def group_atoms (atoms : List Atom3D) (modified : ModDict) : Structure3D :=
  match atoms with
  | [] => ⟨[]⟩
  | a :: rest => ⟨groupAtomsLoop modified (atomKey a) [a] [] 1 rest⟩

/-- Key of a run of atoms: the grouping key of its first atom. -/
def runKey : List Atom3D → Option ResidueLabel × Option ResidueAuth × Int
  | [] => (none, none, 0)
  | a :: _ => atomKey a

/-- Prepend a finished left part to a run decomposition: extend the first
run when its key is the running key, otherwise start a fresh run. -/
def mergeLeft (k : Option ResidueLabel × Option ResidueAuth × Int)
    (cur : List Atom3D) : List (List Atom3D) → List (List Atom3D)
  | [] => [cur]
  | r :: rs => if runKey r = k then (cur ++ r) :: rs else cur :: r :: rs

/-- Decomposition of an atom list into maximal contiguous runs of equal
grouping key; proven below to describe group_atoms exactly. -/
def runsSimple : List Atom3D → List (List Atom3D)
  | [] => []
  | a :: rest => mergeLeft (atomKey a) [a] (runsSimple rest)

/-- Build the residues of a run decomposition with consecutive indices. -/
def mkResidues (modified : ModDict) : Nat → List (List Atom3D) → List Residue3D
  | _, [] => []
  | index, run :: rest =>
    mkResidue modified index (runKey run) run :: mkResidues modified (index + 1) rest

/-- Default residue used only to state indexed properties via List.getD. -/
def dummyResidue : Residue3D :=
  ⟨0, "", 0, none, none, ∅⟩

/-- The identifier pair (label, auth) of a run, its model number dropped. -/
def runLA (r : List Atom3D) : Option ResidueLabel × Option ResidueAuth :=
  ((runKey r).1, (runKey r).2.1)

/-- Total number of atoms over the residue atom sets of a structure. -/
def sumAtoms (s : Structure3D) : Nat :=
  (s.residues.map (fun r => r.atoms.card)).sum

/-- A table of the tag-based (mmCIF) document as exposed by the IoAdapter
backend: its attribute list and its rows. -/
structure CifTable where
  attrs : List String
  rows : List (List String)
deriving DecidableEq, Repr

/-- One data block of the tag-based document: the atom_site table and the
pdbx_struct_mod_residue table, each possibly absent. -/
structure CifData where
  atom_site : Option CifTable
  mod_residue : Option CifTable
deriving DecidableEq, Repr

/-- Python dict(zip(attrs, row)).get(key): value of the last attribute
occurrence equal to key, within the zipped (truncated) pairing. -/
def zipDict (attrs row : List String) (key : String) : Option String :=
  (((attrs.zip row).filter (fun p => decide (p.1 = key))).getLast?).map (fun p => p.2)

/-- Python dict(zip(attrs, row))[key]: KeyError when the key is absent. -/
def zipDictGet (attrs row : List String) (key : String) : Except PyErr String :=
  match zipDict attrs row key with
  | some v => .ok v
  | none => .error .keyError

/-- Embedding of try_parse_int (structure.py lines 193-197). The source
catches only ValueError, so int(None), reached when the column is absent
and dict.get returned None, raises an uncaught TypeError. -/
def try_parse_int (s : Option String) : Except PyErr (Option Int) :=
  match s with
  | none => .error .typeError
  | some str =>
    match pyInt? str with
    | some n => .ok (some n)
    | none => .ok none

/-- Embedding of the atom_site row handling of parse_cif (structure.py
lines 49-80), in source evaluation order. -/
def parseAtomRow (attrs row : List String) : Except PyErr Atom3D :=
  let label_chain_name := zipDict attrs row "label_asym_id"
  match try_parse_int (zipDict attrs row "label_seq_id") with
  | .error e => .error e
  | .ok label_residue_number =>
    let label_residue_name := zipDict attrs row "label_comp_id"
    let auth_chain_name := zipDict attrs row "auth_asym_id"
    match try_parse_int (zipDict attrs row "auth_seq_id") with
    | .error e => .error e
    | .ok auth_residue_number =>
      let auth_residue_name := zipDict attrs row "auth_comp_id"
      let insertion_code := zipDict attrs row "pdbx_PDB_ins_code"
      if label_chain_name = none ∧ auth_chain_name = none then
        .error (.runtimeError "empty chain name")
      else if label_residue_number = none ∧ auth_residue_number = none then
        .error (.runtimeError "empty residue number")
      else if label_residue_name = none ∧ auth_residue_name = none then
        .error (.runtimeError "empty residue name")
      else
        let label : Option ResidueLabel :=
          match label_chain_name, label_residue_number, label_residue_name with
          | some c, some n, some nm => some ⟨c, n, nm⟩
          | _, _, _ => none
        let auth : Option ResidueAuth :=
          match auth_chain_name, auth_residue_number, auth_residue_name, insertion_code with
          | some c, some n, some nm, some ic => some ⟨c, n, ic, nm⟩
          | _, _, _, _ => none
        match pyIntE ((zipDict attrs row "pdbx_PDB_model_num").getD "1") with
        | .error e => .error e
        | .ok model =>
          match zipDictGet attrs row "label_atom_id" with
          | .error e => .error e
          | .ok atom_name =>
            match zipDictGet attrs row "Cartn_x" with
            | .error e => .error e
            | .ok sx =>
              match pyFloatE sx with
              | .error e => .error e
              | .ok x =>
                match zipDictGet attrs row "Cartn_y" with
                | .error e => .error e
                | .ok sy =>
                  match pyFloatE sy with
                  | .error e => .error e
                  | .ok y =>
                    match zipDictGet attrs row "Cartn_z" with
                    | .error e => .error e
                    | .ok sz =>
                      match pyFloatE sz with
                      | .error e => .error e
                      | .ok z => .ok ⟨label, auth, model, atom_name, x, y, z⟩

/-- All atom_site rows of a table, parsed in order; the first error aborts. -/
def parseAtomRows (attrs : List String) : List (List String) → Except PyErr (List Atom3D)
  | [] => .ok []
  | row :: rest =>
    match parseAtomRow attrs row with
    | .error e => .error e
    | .ok a =>
      match parseAtomRows attrs rest with
      | .error e => .error e
      | .ok as => .ok (a :: as)

/-- Embedding of the pdbx_struct_mod_residue row handling of parse_cif
(structure.py lines 83-107). Note the source zips each row against the
attribute list of the atom_site table and reads the PDB_ins_code key. -/
def parseModRow (attrs : List String) (modified : ModDict) (row : List String) :
    Except PyErr ModDict :=
  let label_chain_name := zipDict attrs row "label_asym_id"
  match try_parse_int (zipDict attrs row "label_seq_id") with
  | .error e => .error e
  | .ok label_residue_number =>
    let label_residue_name := zipDict attrs row "label_comp_id"
    let auth_chain_name := zipDict attrs row "auth_asym_id"
    match try_parse_int (zipDict attrs row "auth_seq_id") with
    | .error e => .error e
    | .ok auth_residue_number =>
      let auth_residue_name := zipDict attrs row "auth_comp_id"
      let insertion_code := zipDict attrs row "PDB_ins_code"
      let label : Option ResidueLabel :=
        match label_chain_name, label_residue_number, label_residue_name with
        | some c, some n, some nm => some ⟨c, n, nm⟩
        | _, _, _ => none
      let auth : Option ResidueAuth :=
        match auth_chain_name, auth_residue_number, auth_residue_name, insertion_code with
        | some c, some n, some nm, some ic => some ⟨c, n, ic, nm⟩
        | _, _, _, _ => none
      let standard_residue_name := (zipDict attrs row "parent_comp_id").getD "n"
      .ok (dictInsert (dictInsert modified (labelKey label) standard_residue_name)
        (authKey auth) standard_residue_name)

/-- All mod_residue rows folded into the modification dict, in order. -/
def parseModRows (attrs : List String) (modified : ModDict) :
    List (List String) → Except PyErr ModDict
  | [] => .ok modified
  | row :: rest =>
    match parseModRow attrs modified row with
    | .error e => .error e
    | .ok d => parseModRows attrs d rest

/-- Embedding of parse_cif (structure.py lines 36-109) over the loaded
document. An empty document list yields no atoms; mod_residue rows are
zipped against the atom_site attribute list, so a missing atom_site table
with nonempty mod rows is the AttributeError of None.getAttributeList(). -/
def parse_cif (data : List CifData) : Except PyErr (List Atom3D × ModDict) :=
  match data with
  | [] => .ok ([], [])
  | d :: _ =>
    match (match d.atom_site with
           | none => Except.ok ([] : List Atom3D)
           | some t => parseAtomRows t.attrs t.rows) with
    | .error e => .error e
    | .ok atoms =>
      match (match d.mod_residue with
             | none => Except.ok ([] : ModDict)
             | some mt =>
               match d.atom_site with
               | none =>
                 if mt.rows.isEmpty then Except.ok ([] : ModDict)
                 else Except.error PyErr.attributeError
               | some t => parseModRows t.attrs [] mt.rows) with
      | .error e => .error e
      | .ok modified => .ok (atoms, modified)

/-- Embedding of read_3d_structure (structure.py lines 22-25) for a
tag-based input: parse, filter atoms to the requested model, group. -/
def read_3d_structure_cif (data : List CifData) (model : Int) :
    Except PyErr Structure3D :=
  match parse_cif data with
  | .error e => .error e
  | .ok p => .ok (group_atoms (p.1.filter (fun a => decide (a.model = model))) p.2)

/-- The model number recorded in an atom_site row (column defaulting to 1),
used to count the rows matching a requested model. -/
def rowModelValue (attrs row : List String) : Option Int :=
  pyInt? ((zipDict attrs row "pdbx_PDB_model_num").getD "1")

/-- The rows of the atom_site table of a document (empty when absent). -/
def cifAtomRows (data : List CifData) : List (List String) :=
  match data with
  | [] => []
  | d :: _ =>
    match d.atom_site with
    | none => []
    | some t => t.rows

/-- The attribute list of the atom_site table of a document. -/
def cifAtomAttrs (data : List CifData) : List String :=
  match data with
  | [] => []
  | d :: _ =>
    match d.atom_site with
    | none => []
    | some t => t.attrs

/-- Embedding of the ATOM/HETATM branch of parse_pdb (structure.py lines
121-134): the line is skipped unless the alternate-location byte at index
16 is a blank; otherwise the fixed slices are read. The auth residue name
is the stripped two-byte slice [18:20). -/
def parseAtomLine (model : Int) (line : String) : Except PyErr (Option Atom3D) :=
  match pyAt line 16 with
  | .error e => .error e
  | .ok alternate_location =>
    if alternate_location ≠ ' ' then .ok none
    else
      let atom_name := pyStrip (pySlice line 12 16)
      let residue_name := pyStrip (pySlice line 18 20)
      match pyAt line 21 with
      | .error e => .error e
      | .ok chain_identifier =>
        match pyIntE (pyStrip (pySlice line 22 26)) with
        | .error e => .error e
        | .ok residue_number =>
          match pyAt line 26 with
          | .error e => .error e
          | .ok insertion_code =>
            match pyFloatE (pyStrip (pySlice line 30 38)) with
            | .error e => .error e
            | .ok x =>
              match pyFloatE (pyStrip (pySlice line 38 46)) with
              | .error e => .error e
              | .ok y =>
                match pyFloatE (pyStrip (pySlice line 46 54)) with
                | .error e => .error e
                | .ok z =>
                  .ok (some ⟨none,
                    some ⟨String.mk [chain_identifier], residue_number,
                      String.mk [insertion_code], residue_name⟩,
                    model, atom_name, x, y, z⟩)

/-- Embedding of the MODRES branch of parse_pdb (structure.py lines
135-142): the original residue name is the raw, unstripped three-byte
slice [12:15). -/
def parseModresLine (line : String) : Except PyErr (ResidueAuth × String) :=
  let original_name := pySlice line 12 15
  match pyAt line 16 with
  | .error e => .error e
  | .ok chain_identifier =>
    match pyIntE (pyStrip (pySlice line 18 22)) with
    | .error e => .error e
    | .ok residue_number =>
      match pyAt line 23 with
      | .error e => .error e
      | .ok insertion_code =>
        let standard_residue_name := pyStrip (pySlice line 24 27)
        .ok (⟨String.mk [chain_identifier], residue_number,
          String.mk [insertion_code], original_name⟩, standard_residue_name)

/-- The mutable state of the parse_pdb line loop. -/
structure PdbState where
  model : Int
  atoms : List Atom3D
  modified : ModDict
deriving DecidableEq, Repr

/-- One line of the parse_pdb loop (structure.py lines 118-142). -/
def parse_pdb_step (st : PdbState) (line : String) : Except PyErr PdbState :=
  if strStarts line "MODEL" then
    match pyIntE (pyStrip (pySlice line 10 14)) with
    | .error e => .error e
    | .ok m => .ok { st with model := m }
  else if strStarts line "ATOM" || strStarts line "HETATM" then
    match parseAtomLine st.model line with
    | .error e => .error e
    | .ok none => .ok st
    | .ok (some a) => .ok { st with atoms := st.atoms ++ [a] }
  else if strStarts line "MODRES" then
    match parseModresLine line with
    | .error e => .error e
    | .ok r => .ok { st with modified := dictInsert st.modified (some (Sum.inr r.1)) r.2 }
  else
    .ok st

/-- The line loop of parse_pdb (structure.py lines 112-144), carrying the
state through the remaining lines. -/
def parsePdbLoop (st : PdbState) : List String → Except PyErr PdbState
  | [] => .ok st
  | line :: rest =>
    match parse_pdb_step st line with
    | .error e => .error e
    | .ok st2 => parsePdbLoop st2 rest

/-- Embedding of parse_pdb over the input lines. -/
def parse_pdb (lines : List String) : Except PyErr (List Atom3D × ModDict) :=
  match parsePdbLoop ⟨1, [], []⟩ lines with
  | .error e => .error e
  | .ok st => .ok (st.atoms, st.modified)

/-- A fixed-column line that the parse_pdb loop skips by the
alternate-location test: an ATOM/HETATM line whose byte 16 exists and is
not a blank. -/
def isSkippedAltLocLine (line : String) : Bool :=
  (strStarts line "ATOM" || strStarts line "HETATM") &&
    (match line.data.get? 16 with
     | some c => decide (c ≠ ' ')
     | none => false)

/-- Model of a residue of the external rnapolis library as used by cli.py:
only its fully-qualified name participates in descriptor matching. -/
structure DssrResidue where
  full_name : String
deriving DecidableEq, Repr

/-- Model of the external 3D structure consumed by the DSSR import path. -/
structure DssrStructure3D where
  residues : List DssrResidue
deriving DecidableEq, Repr

/-- The closed enumeration of pairing geometry classes of the external
rnapolis library (Leontis-Westhof names). -/
inductive LeontisWesthof where
  | cWW | cWH | cWS | cHW | cHH | cHS | cSW | cSH | cSS
  | tWW | tWH | tWS | tHW | tHH | tHS | tSW | tSH | tSS
deriving DecidableEq, Repr

/-- Model of the external BasePair relation (its constant None extra
argument omitted). -/
structure BasePair where
  nt1 : DssrResidue
  nt2 : DssrResidue
  lw : LeontisWesthof
deriving DecidableEq, Repr

/-- Model of the external Stacking relation (its constant None extra
argument omitted). -/
structure Stacking where
  nt1 : DssrResidue
  nt2 : DssrResidue
deriving DecidableEq, Repr

/-- Model of the external Structure2D as built by cli.py: the pairing and
stacking lists; the remaining ten categories are passed as constants and
omitted here. -/
structure Structure2D where
  base_pairs : List BasePair
  stackings : List Stacking
deriving DecidableEq, Repr

/-- One entry of the DSSR pairs list: the two descriptors and the geometry
code, each possibly absent (dict.get with None default). -/
structure DssrPair where
  nt1 : Option String
  nt2 : Option String
  lw : Option String
deriving DecidableEq, Repr

/-- One entry of the DSSR stacks list: the comma-delimited descriptor list,
possibly absent (dict.get defaulting to the empty string). -/
structure DssrStack where
  nts_long : Option String
deriving DecidableEq, Repr

/-- One per-model record of the DSSR payload with its parameters. -/
structure DssrModelEntry where
  model : Option Int
  pairs : List DssrPair
  stacksList : List DssrStack
deriving DecidableEq, Repr

/-- The DSSR payload: the models list plus top-level pairs/stacks, which
the code falls back to when no model record matches. -/
structure DssrJson where
  models : List DssrModelEntry
  pairs : List DssrPair
  stacksList : List DssrStack
deriving DecidableEq, Repr

/-- Embedding of match_dssr_name_to_residue (cli.py lines 219-228): take
the token after the last colon and return the first residue with that
fully-qualified name, None when nothing matches. -/
def match_dssr_name_to_residue (structure3d : DssrStructure3D) (nt_id : Option String) :
    Option DssrResidue :=
  match nt_id with
  | none => none
  | some s =>
    let tok := (pySplitStr ':' s).getLastD ""
    structure3d.residues.find? (fun r => decide (r.full_name = tok))

/-- The member names of the geometry enumeration paired with their values;
`dir(LeontisWesthof)` is modelled by this member-name list. -/
def lwNames : List (String × LeontisWesthof) :=
  [("cWW", .cWW), ("cWH", .cWH), ("cWS", .cWS), ("cHW", .cHW), ("cHH", .cHH), ("cHS", .cHS),
   ("cSW", .cSW), ("cSH", .cSH), ("cSS", .cSS), ("tWW", .tWW), ("tWH", .tWH), ("tWS", .tWS),
   ("tHW", .tHW), ("tHH", .tHH), ("tHS", .tHS), ("tSW", .tSW), ("tSH", .tSH), ("tSS", .tSS)]

/-- Embedding of match_dssr_lw (cli.py lines 231-232). -/
def match_dssr_lw (lw : Option String) : Option LeontisWesthof :=
  match lw with
  | none => none
  | some s => (lwNames.find? (fun p => decide (p.1 = s))).map (fun p => p.2)

/-- Selection of the per-model record (cli.py lines 192-195): the first
record whose model equals the target, else the top-level dict itself. -/
def selectParams (dssr : DssrJson) (model : Int) : List DssrPair × List DssrStack :=
  match dssr.models.find? (fun e => decide (e.model = some model)) with
  | some e => (e.pairs, e.stacksList)
  | none => (dssr.pairs, dssr.stacksList)

/-- Embedding of the pairs loop (cli.py lines 197-203): resolve both
descriptors and the geometry code, appending a relation only when all
three resolve. -/
def collectPairs (structure3d : DssrStructure3D) : List DssrPair → List BasePair
  | [] => []
  | p :: rest =>
    match match_dssr_name_to_residue structure3d p.nt1,
          match_dssr_name_to_residue structure3d p.nt2,
          match_dssr_lw p.lw with
    | some a, some b, some l => ⟨a, b, l⟩ :: collectPairs structure3d rest
    | _, _, _ => collectPairs structure3d rest

/-- The resolved-token list of one stack (cli.py lines 206-209). -/
def stackNts (structure3d : DssrStructure3D) (s : DssrStack) : List (Option DssrResidue) :=
  (pySplitStr ',' (s.nts_long.getD "")).map
    (fun nt => match_dssr_name_to_residue structure3d (some nt))

/-- Embedding of the inner stack loop (cli.py lines 210-214): one stacking
relation per adjacent position pair whose both tokens resolved. -/
def adjacentStackings : List (Option DssrResidue) → List Stacking
  | [] => []
  | [_] => []
  | a :: b :: rest =>
    (match a, b with
     | some x, some y => [Stacking.mk x y]
     | _, _ => []) ++ adjacentStackings (b :: rest)

/-- Embedding of the stacks loop (cli.py lines 205-214). -/
def collectStacks (structure3d : DssrStructure3D) : List DssrStack → List Stacking
  | [] => []
  | s :: rest => adjacentStackings (stackNts structure3d s) ++ collectStacks structure3d rest

/-- Embedding of read_secondary_structure_from_dssr (cli.py lines 183-216). -/
def read_secondary_structure_from_dssr (structure3d : DssrStructure3D) (model : Int)
    (dssr : DssrJson) : Structure2D :=
  ⟨collectPairs structure3d (selectParams dssr model).1,
   collectStacks structure3d (selectParams dssr model).2⟩

/-- Resolution of a single declared pair, stated from the spec side: the
relation it should contribute, or none when a descriptor or the geometry
code fails to resolve. -/
def specResolvedPair (structure3d : DssrStructure3D) (p : DssrPair) : Option BasePair :=
  match match_dssr_name_to_residue structure3d p.nt1,
        match_dssr_name_to_residue structure3d p.nt2,
        match_dssr_lw p.lw with
  | some a, some b, some l => some ⟨a, b, l⟩
  | _, _, _ => none

/-- Number of adjacent token positions whose both tokens resolved, stated
from the spec side for comparison with the emitted relation count. -/
def adjacentResolvedCount (nts : List (Option DssrResidue)) : Nat :=
  ((nts.zip nts.tail).filter (fun p => p.1.isSome && p.2.isSome)).length

/-- A concrete auth-identified guanosine atom, model 1. -/
def atomG : Atom3D :=
  ⟨none, some ⟨"A", 1, " ", "G"⟩, 1, "P", ⟨1, 0⟩, ⟨0, 0⟩, ⟨0, 0⟩⟩

/-- A concrete auth-identified uridine atom, model 1. -/
def atomU : Atom3D :=
  ⟨none, some ⟨"A", 2, " ", "U"⟩, 1, "P", ⟨0, 0⟩, ⟨1, 0⟩, ⟨0, 0⟩⟩

/-- A tag-based atom row whose populated columns cover chain, number and
name across the two schemes without completing either scheme. -/
def tableC3 : CifTable :=
  ⟨["label_asym_id", "label_seq_id", "auth_seq_id", "auth_comp_id",
    "label_atom_id", "Cartn_x", "Cartn_y", "Cartn_z"],
   [["A", "1", "2", "G", "P", "1.0", "2.0", "3.0"]]⟩

/-- Document holding only `tableC3` as its atom table. -/
def docC3 : List CifData :=
  [⟨some tableC3, none⟩]

/-- A tag-based atom table whose label_seq_id column is absent entirely;
all auth columns are present. -/
def tableC5 : CifTable :=
  ⟨["auth_asym_id", "auth_seq_id", "auth_comp_id", "pdbx_PDB_ins_code",
    "label_atom_id", "Cartn_x", "Cartn_y", "Cartn_z"],
   [["A", "1", "G", " ", "P", "1.0", "2.0", "3.0"]]⟩

/-- Document holding only `tableC5` as its atom table. -/
def docC5 : List CifData :=
  [⟨some tableC5, none⟩]

/-- A fully-columned tag-based atom table with one row in model 1 and one
row in model 2. -/
def tableC7 : CifTable :=
  ⟨["label_asym_id", "label_seq_id", "label_comp_id", "auth_asym_id",
    "auth_seq_id", "auth_comp_id", "pdbx_PDB_ins_code", "pdbx_PDB_model_num",
    "label_atom_id", "Cartn_x", "Cartn_y", "Cartn_z"],
   [["A", "1", "G", "A", "1", "G", "?", "1", "P", "1.0", "2.0", "3.0"],
    ["A", "1", "G", "A", "1", "G", "?", "2", "P", "1.5", "2.5", "3.5"]]⟩

/-- Document holding only `tableC7` as its atom table. -/
def docC7 : List CifData :=
  [⟨some tableC7, none⟩]

/-- The atoms that parsing `docC7` yields. -/
def atomsC7 : List Atom3D :=
  [⟨some ⟨"A", 1, "G"⟩, some ⟨"A", 1, "?", "G"⟩, 1, "P", ⟨1, 0⟩, ⟨2, 0⟩, ⟨3, 0⟩⟩,
   ⟨some ⟨"A", 1, "G"⟩, some ⟨"A", 1, "?", "G"⟩, 2, "P", ⟨15, 1⟩, ⟨25, 1⟩, ⟨35, 1⟩⟩]

/-- A concrete auth identifier carrying a modified residue name. -/
def authPSU : ResidueAuth :=
  ⟨"A", 1, " ", "PSU"⟩

/-- A modification table mapping `authPSU` to the parent name U. -/
def modTableU : ModDict :=
  [(some (Sum.inr authPSU), "U")]

/-- A fixed-column atom line with a blank alternate-location byte. -/
def pdbAtomLineBlank : String :=
  "ATOM      1  N    G  A   1      11.000  12.000  13.000"

/-- The same fixed-column atom line with alternate-location byte A, the
conventional marker of the first (primary) conformer. -/
def pdbAtomLineAltA : String :=
  "ATOM      1  N  A G  A   1      11.000  12.000  13.000"

/-- A fixed-column MODRES line: original name PSU, chain A, number 1,
blank insertion code, parent name U. -/
def pdbModresLine : String :=
  "MODRES 1ABC PSU A    1    U"

/-- A residue named 1.A of the external structure. -/
def resA : DssrResidue :=
  ⟨"1.A"⟩

/-- A residue named 3.G of the external structure. -/
def resG : DssrResidue :=
  ⟨"3.G"⟩

/-- An external structure holding the residues 1.A and 3.G. -/
def s3dAG : DssrStructure3D :=
  ⟨[resA, resG]⟩

/-- A declared stack whose middle descriptor resolves to no residue. -/
def stackC9 : DssrStack :=
  ⟨some "A:1.A,X:9.X,B:3.G"⟩

/-- A payload carrying only `stackC9` at top level. -/
def dssrC9 : DssrJson :=
  ⟨[], [], [stackC9]⟩

/-- A declared stack whose two descriptors both resolve. -/
def stackOK : DssrStack :=
  ⟨some "A:1.A,B:3.G"⟩

theorem flatten_mergeLeft (k : Option ResidueLabel × Option ResidueAuth × Int)
    (cur : List Atom3D) (rs : List (List Atom3D)) :
    (mergeLeft k cur rs).flatten = cur ++ rs.flatten := by
  cases rs with
  | nil => simp [mergeLeft]
  | cons r rs' =>
    by_cases h : runKey r = k
    · simp [mergeLeft, h]
    · simp [mergeLeft, h]

theorem flatten_runsSimple (l : List Atom3D) : (runsSimple l).flatten = l := by
  induction l with
  | nil => rfl
  | cons a rest ih => simp [runsSimple, flatten_mergeLeft, ih]

theorem mergeLeft_extend (k : Option ResidueLabel × Option ResidueAuth × Int)
    (cur : List Atom3D) (atom : Atom3D) (rs : List (List Atom3D))
    (h : atomKey atom = k) :
    mergeLeft k cur (mergeLeft k [atom] rs) = mergeLeft k (cur ++ [atom]) rs := by
  have hA1 : runKey [atom] = k := h
  cases rs with
  | nil => simp [mergeLeft, hA1]
  | cons r rs' =>
    by_cases hr : runKey r = k
    · have hA2 : runKey (atom :: r) = k := h
      simp [mergeLeft, hr, hA2]
    · simp [mergeLeft, hr, hA1]

theorem mergeLeft_head (k : Option ResidueLabel × Option ResidueAuth × Int)
    (atom : Atom3D) (rs : List (List Atom3D)) :
    ∃ tl rs2, mergeLeft k [atom] rs = (atom :: tl) :: rs2 := by
  cases rs with
  | nil => exact ⟨[], [], rfl⟩
  | cons r rs' =>
    by_cases hr : runKey r = k
    · exact ⟨r, rs', by simp [mergeLeft, hr]⟩
    · exact ⟨[], r :: rs', by simp [mergeLeft, hr]⟩

theorem groupAtomsLoop_eq (modified : ModDict) :
    ∀ (rest : List Atom3D) (k : Option ResidueLabel × Option ResidueAuth × Int)
      (cur : List Atom3D) (res : List Residue3D) (idx : Nat),
      cur ≠ [] → (∀ x ∈ cur, atomKey x = k) →
      groupAtomsLoop modified k cur res idx rest
        = res ++ mkResidues modified idx (mergeLeft k cur (runsSimple rest)) := by
  intro rest
  induction rest with
  | nil =>
    intro k cur res idx hne hk
    cases cur with
    | nil => exact absurd rfl hne
    | cons a tl =>
      have ha : atomKey a = k := hk a (by simp)
      simp [groupAtomsLoop, mergeLeft, runsSimple, mkResidues, runKey, ha]
  | cons atom rest' ih =>
    intro k cur res idx hne hk
    by_cases h : atomKey atom = k
    · have step : groupAtomsLoop modified k cur res idx (atom :: rest')
          = groupAtomsLoop modified k (cur ++ [atom]) res idx rest' := by
        simp [groupAtomsLoop, h]
      rw [step, ih k (cur ++ [atom]) res idx (by simp)
        (by intro x hx; rcases List.mem_append.mp hx with hx | hx
            · exact hk x hx
            · simp at hx; subst hx; exact h)]
      rw [runsSimple, h, mergeLeft_extend k cur atom (runsSimple rest') h]
    · have step : groupAtomsLoop modified k cur res idx (atom :: rest')
          = groupAtomsLoop modified (atomKey atom) [atom]
              (res ++ [mkResidue modified idx k cur]) (idx + 1) rest' := by
        simp [groupAtomsLoop, h]
      rw [step, ih (atomKey atom) [atom] _ (idx + 1) (by simp)
        (by intro x hx; simp at hx; subst hx; rfl)]
      obtain ⟨tl, rs2, hml⟩ := mergeLeft_head (atomKey atom) atom (runsSimple rest')
      have hk2 : runKey (atom :: tl) = atomKey atom := rfl
      have hcur : runKey cur = k := by
        cases cur with
        | nil => exact absurd rfl hne
        | cons a t => exact hk a (by simp)
      rw [runsSimple, hml]
      have : mergeLeft k cur ((atom :: tl) :: rs2) = cur :: (atom :: tl) :: rs2 := by
        simp [mergeLeft, hk2, h]
      rw [this]
      simp [mkResidues, hcur]

theorem group_atoms_eq (atoms : List Atom3D) (modified : ModDict) :
    group_atoms atoms modified = ⟨mkResidues modified 1 (runsSimple atoms)⟩ := by
  cases atoms with
  | nil => rfl
  | cons a rest =>
    show Structure3D.mk (groupAtomsLoop modified (atomKey a) [a] [] 1 rest) = _
    rw [groupAtomsLoop_eq modified rest (atomKey a) [a] [] 1 (by simp)
      (by intro x hx; simp at hx; subst hx; rfl)]
    rfl

theorem ne_nil_mergeLeft (k : Option ResidueLabel × Option ResidueAuth × Int)
    (cur : List Atom3D) (rs : List (List Atom3D))
    (hcur : cur ≠ []) (hrs : ∀ r ∈ rs, r ≠ []) :
    ∀ r ∈ mergeLeft k cur rs, r ≠ [] := by
  cases rs with
  | nil =>
    intro r hr
    simp [mergeLeft] at hr
    subst hr
    exact hcur
  | cons r0 rs' =>
    by_cases h : runKey r0 = k
    · intro r hr
      simp [mergeLeft, h] at hr
      rcases hr with hr | hr
      · subst hr
        intro hcontra
        exact hcur (List.append_eq_nil.mp hcontra).1
      · exact hrs r (by simp [hr])
    · intro r hr
      simp [mergeLeft, h] at hr
      rcases hr with hr | hr | hr
      · subst hr; exact hcur
      · rw [hr]; exact hrs r0 (by simp)
      · exact hrs r (by simp [hr])

theorem ne_nil_runsSimple (l : List Atom3D) : ∀ r ∈ runsSimple l, r ≠ [] := by
  induction l with
  | nil => intro r hr; simp [runsSimple] at hr
  | cons a rest ih =>
    exact ne_nil_mergeLeft (atomKey a) [a] (runsSimple rest) (by simp) ih

theorem runConst_mergeLeft (a : Atom3D) (rs : List (List Atom3D))
    (hrs : ∀ r ∈ rs, ∀ x ∈ r, atomKey x = runKey r) :
    ∀ r ∈ mergeLeft (atomKey a) [a] rs, ∀ x ∈ r, atomKey x = runKey r := by
  cases rs with
  | nil =>
    intro r hr x hx
    simp [mergeLeft] at hr
    subst hr
    simp at hx
    subst hx
    rfl
  | cons r0 rs' =>
    by_cases h : runKey r0 = atomKey a
    · intro r hr x hx
      simp [mergeLeft, h] at hr
      rcases hr with hr | hr
      · subst hr
        have hrk : runKey (a :: r0) = atomKey a := rfl
        rw [hrk]
        rcases List.mem_cons.mp hx with hx | hx
        · subst hx; rfl
        · rw [hrs r0 (by simp) x hx]; exact h
      · exact hrs r (by simp [hr]) x hx
    · intro r hr x hx
      simp [mergeLeft, h] at hr
      rcases hr with hr | hr | hr
      · subst hr
        simp at hx
        subst hx
        rfl
      · rw [hr] at hx ⊢; exact hrs r0 (by simp) x hx
      · exact hrs r (by simp [hr]) x hx

theorem runConst_runsSimple (l : List Atom3D) :
    ∀ r ∈ runsSimple l, ∀ x ∈ r, atomKey x = runKey r := by
  induction l with
  | nil => intro r hr; simp [runsSimple] at hr
  | cons a rest ih => exact runConst_mergeLeft a (runsSimple rest) ih

theorem chain_mergeLeft (a : Atom3D) (rs : List (List Atom3D))
    (hrs : List.Chain' (fun r s => runKey r ≠ runKey s) rs) :
    List.Chain' (fun r s => runKey r ≠ runKey s) (mergeLeft (atomKey a) [a] rs) := by
  cases rs with
  | nil => simp [mergeLeft]
  | cons r0 rs' =>
    by_cases h : runKey r0 = atomKey a
    · have hres : mergeLeft (atomKey a) [a] (r0 :: rs') = (a :: r0) :: rs' := by
        simp [mergeLeft, h]
      rw [hres]
      cases rs' with
      | nil => simp
      | cons s1 t =>
        rw [List.chain'_cons] at hrs ⊢
        refine ⟨?_, hrs.2⟩
        have hrk : runKey (a :: r0) = atomKey a := rfl
        rw [hrk, ← h]
        exact hrs.1
    · have hres : mergeLeft (atomKey a) [a] (r0 :: rs') = [a] :: r0 :: rs' := by
        simp [mergeLeft, h]
      rw [hres, List.chain'_cons]
      refine ⟨?_, hrs⟩
      have hrk : runKey [a] = atomKey a := rfl
      rw [hrk]
      exact fun he => h he.symm

theorem chain_runsSimple (l : List Atom3D) :
    List.Chain' (fun r s => runKey r ≠ runKey s) (runsSimple l) := by
  induction l with
  | nil => simp [runsSimple]
  | cons a rest ih => exact chain_mergeLeft a (runsSimple rest) ih

theorem getD_get_eq {α : Type} : ∀ (l : List α) (d : α) (i : Nat) (h : i < l.length),
    l.getD i d = l.get ⟨i, h⟩ := by
  intro l d
  induction l with
  | nil => intro i h; simp at h
  | cons a t ih =>
    intro i h
    cases i with
    | zero => rfl
    | succ i' => simpa using ih i' (by simpa using h)

theorem length_mkResidues (modified : ModDict) :
    ∀ (runs : List (List Atom3D)) (idx : Nat),
      (mkResidues modified idx runs).length = runs.length := by
  intro runs
  induction runs with
  | nil => intro idx; rfl
  | cons r rest ih => intro idx; simp [mkResidues, ih]

theorem index_mkResidues (modified : ModDict) :
    ∀ (runs : List (List Atom3D)) (idx i : Nat), i < runs.length →
      ((mkResidues modified idx runs).getD i dummyResidue).index = idx + i := by
  intro runs
  induction runs with
  | nil => intro idx i h; simp at h
  | cons r rest ih =>
    intro idx i h
    cases i with
    | zero => simp [mkResidues, mkResidue]
    | succ i' =>
      simp only [mkResidues, List.getD_cons_succ]
      rw [ih (idx + 1) i' (by simpa using h)]
      omega

theorem atoms_mkResidues (modified : ModDict) :
    ∀ (runs : List (List Atom3D)) (idx i : Nat), i < runs.length →
      ((mkResidues modified idx runs).getD i dummyResidue).atoms
        = (runs.getD i []).toFinset := by
  intro runs
  induction runs with
  | nil => intro idx i h; simp at h
  | cons r rest ih =>
    intro idx i h
    cases i with
    | zero => simp [mkResidues, mkResidue]
    | succ i' =>
      simp only [mkResidues, List.getD_cons_succ]
      exact ih (idx + 1) i' (by simpa using h)

theorem runKey_model_of_mem (atoms : List Atom3D) (m : Int)
    (hm : ∀ a ∈ atoms, a.model = m) (r : List Atom3D)
    (hr : r ∈ runsSimple atoms) : (runKey r).2.2 = m := by
  have hne := ne_nil_runsSimple atoms r hr
  cases r with
  | nil => exact absurd rfl hne
  | cons a t =>
    have ha : a ∈ atoms := by
      rw [← flatten_runsSimple atoms]
      exact List.mem_flatten.mpr ⟨a :: t, hr, by simp⟩
    exact hm a ha

/-- C1: for every atom list of one model, grouping partitions it into
contiguous runs: the runs concatenate to the input, each run is nonempty
with a constant (label key, auth key), adjacent runs carry different
(label key, auth key), and the i-th residue of group_atoms is built from
the i-th run, so atoms of equal keys separated by a different key fall
into distinct residues and are never merged. -/
theorem C1_grouping_partitions_into_runs (atoms : List Atom3D) (modified : ModDict)
    (m : Int) (hm : ∀ a ∈ atoms, a.model = m) :
    ∃ runs : List (List Atom3D),
      runs.flatten = atoms ∧
      (∀ r ∈ runs, r ≠ []) ∧
      (∀ r ∈ runs, ∀ x ∈ r, ∀ y ∈ r, (x.label, x.auth) = (y.label, y.auth)) ∧
      (∀ i, i + 1 < runs.length →
        runLA (runs.getD i []) ≠ runLA (runs.getD (i + 1) [])) ∧
      (group_atoms atoms modified).residues = mkResidues modified 1 runs ∧
      (∀ i, i < runs.length →
        ((group_atoms atoms modified).residues.getD i dummyResidue).atoms
          = (runs.getD i []).toFinset) := by
  refine ⟨runsSimple atoms, flatten_runsSimple atoms, ne_nil_runsSimple atoms,
    ?_, ?_, ?_, ?_⟩
  · intro r hr x hx y hy
    have hx' := runConst_runsSimple atoms r hr x hx
    have hy' := runConst_runsSimple atoms r hr y hy
    have h := hx'.trans hy'.symm
    simp only [atomKey, Prod.mk.injEq] at h
    simp [h.1, h.2.1]
  · intro i hii
    have hch := chain_runsSimple atoms
    rw [List.chain'_iff_get] at hch
    have h1 : i < (runsSimple atoms).length := by omega
    have h2 : i + 1 < (runsSimple atoms).length := hii
    have hne := hch i (by omega)
    rw [getD_get_eq _ _ i h1, getD_get_eq _ _ (i + 1) h2]
    intro heq
    apply hne
    have hm1 := runKey_model_of_mem atoms m hm _ (List.get_mem _ i h1)
    have hm2 := runKey_model_of_mem atoms m hm _ (List.get_mem _ (i + 1) h2)
    simp only [runLA, Prod.mk.injEq] at heq
    have h22 : (runKey ((runsSimple atoms).get ⟨i, h1⟩)).2.2
        = (runKey ((runsSimple atoms).get ⟨i + 1, h2⟩)).2.2 := by rw [hm1, hm2]
    exact Prod.ext heq.1 (Prod.ext heq.2 h22)
  · exact congrArg Structure3D.residues (group_atoms_eq atoms modified)
  · intro i hi
    rw [group_atoms_eq atoms modified]
    exact atoms_mkResidues modified (runsSimple atoms) 1 i hi

theorem group_atoms_residues_eq (atoms : List Atom3D) (modified : ModDict) :
    (group_atoms atoms modified).residues = mkResidues modified 1 (runsSimple atoms) :=
  congrArg Structure3D.residues (group_atoms_eq atoms modified)

/-- Witness for C1 at the concrete atom list [atomG, atomU, atomG], whose
first and third atoms share a key but are separated by a different key. -/
theorem C1_grouping_partitions_into_runs_witness :
    (∀ a ∈ [atomG, atomU, atomG], a.model = 1) ∧
    (∃ runs : List (List Atom3D),
      runs.flatten = [atomG, atomU, atomG] ∧
      (∀ r ∈ runs, r ≠ []) ∧
      (∀ r ∈ runs, ∀ x ∈ r, ∀ y ∈ r, (x.label, x.auth) = (y.label, y.auth)) ∧
      (∀ i, i + 1 < runs.length →
        runLA (runs.getD i []) ≠ runLA (runs.getD (i + 1) [])) ∧
      (group_atoms [atomG, atomU, atomG] []).residues = mkResidues [] 1 runs ∧
      (∀ i, i < runs.length →
        ((group_atoms [atomG, atomU, atomG] []).residues.getD i dummyResidue).atoms
          = (runs.getD i []).toFinset)) :=
  ⟨by decide, C1_grouping_partitions_into_runs [atomG, atomU, atomG] [] 1 (by decide)⟩

/-- C2: the residues of group_atoms carry strictly increasing, gapless
global indices starting at 1 (the residue at 0-based position i has index
i + 1), and the empty atom list yields an empty residue sequence. -/
theorem C2_indices_gapless_from_one (atoms : List Atom3D) (modified : ModDict) :
    (∀ i, i < (group_atoms atoms modified).residues.length →
      ((group_atoms atoms modified).residues.getD i dummyResidue).index = i + 1) ∧
    (atoms = [] → (group_atoms atoms modified).residues = []) := by
  constructor
  · intro i hi
    rw [group_atoms_residues_eq] at hi ⊢
    have hlen := length_mkResidues modified (runsSimple atoms) 1
    rw [index_mkResidues modified (runsSimple atoms) 1 i (by omega)]
    omega
  · intro h
    subst h
    rfl

/-- Witness for C2 at a two-residue input and at the empty input. -/
theorem C2_indices_gapless_from_one_witness :
    (1 < (group_atoms [atomG, atomU] []).residues.length) ∧
    ((group_atoms [atomG, atomU] []).residues.getD 1 dummyResidue).index = 1 + 1 ∧
    (group_atoms ([] : List Atom3D) []).residues = [] :=
  ⟨by decide, (C2_indices_gapless_from_one [atomG, atomU] []).1 1 (by decide),
   (C2_indices_gapless_from_one [] []).2 rfl⟩

/-- C4 counterexample: a residue whose auth key maps to parent name U in
the modification table resolves to the lowercased u, which is not the
mapped parent name U; the claimed equality with the mapped name fails. -/
theorem C4_counterexample :
    dictGet modTableU (authKey (some authPSU)) = some "U" ∧
    get_residue_name (some authPSU) none modTableU = "u" ∧
    ("u" : String) ≠ "U" := by
  refine ⟨rfl, by decide, by decide⟩

/-- C4 (amended): the resolved name follows the priority auth-keyed
modification entry, then label-keyed modification entry, then auth residue
name, then label residue name, then the unknown-nucleotide marker n, where
a matched modification entry yields the lowercase of the mapped parent
name regardless of the raw residue name. -/
theorem C4_name_resolution_priority (auth : Option ResidueAuth)
    (label : Option ResidueLabel) (modified : ModDict) :
    (∀ v, dictGet modified (authKey auth) = some v →
      get_residue_name auth label modified = pyLower v) ∧
    (dictGet modified (authKey auth) = none →
      ∀ v, dictGet modified (labelKey label) = some v →
        get_residue_name auth label modified = pyLower v) ∧
    (dictGet modified (authKey auth) = none →
      dictGet modified (labelKey label) = none →
      ∀ a, auth = some a → get_residue_name auth label modified = a.name) ∧
    (dictGet modified (authKey auth) = none →
      dictGet modified (labelKey label) = none → auth = none →
      ∀ l, label = some l → get_residue_name auth label modified = l.name) ∧
    (dictGet modified (authKey auth) = none →
      dictGet modified (labelKey label) = none → auth = none → label = none →
      get_residue_name auth label modified = "n") := by
  refine ⟨?_, ?_, ?_, ?_, ?_⟩
  · intro v hv
    simp [get_residue_name, hv]
  · intro h0 v hv
    simp [get_residue_name, h0, hv]
  · intro h0 h1 a ha
    subst ha
    simp [get_residue_name, h0, h1]
  · intro h0 h1 ha l hl
    subst ha
    subst hl
    simp [get_residue_name, h0, h1]
  · intro h0 h1 ha hl
    subst ha
    subst hl
    simp [get_residue_name, h0, h1]

/-- Witness for C4 (amended): the auth-keyed entry U resolves to u. -/
theorem C4_name_resolution_priority_witness :
    dictGet modTableU (authKey (some authPSU)) = some "U" ∧
    get_residue_name (some authPSU) none modTableU = pyLower "U" :=
  ⟨rfl, (C4_name_resolution_priority (some authPSU) none modTableU).1 "U" rfl⟩

theorem except_bind_ok {ε α β : Type} (a : α) (f : α → Except ε β) :
    (Except.ok a >>= f : Except ε β) = f a := rfl

theorem except_bind_error {ε α β : Type} (e : ε) (f : α → Except ε β) :
    (Except.error e >>= f : Except ε β) = Except.error e := rfl

theorem except_pure_eq {ε α : Type} (a : α) : (pure a : Except ε α) = Except.ok a := rfl

theorem except_throw_eq {ε α : Type} (e : ε) : (throw e : Except ε α) = Except.error e := rfl

/-- C3 counterexample: the atom row of docC3 populates the chain column
only on the label side, the name column only on the auth side, and the
number column on both, so neither identifier scheme is fully populated;
the parse nevertheless succeeds and stores the atom with both identifiers
absent, refuting the claimed fatal failure. -/
theorem C3_counterexample :
    parse_cif docC3 = .ok ([⟨none, none, 1, "P", ⟨1, 0⟩, ⟨2, 0⟩, ⟨3, 0⟩⟩], []) := by
  decide

/-- C3 (amended): an atom row is rejected on identifier grounds exactly by
the three both-sides-absent checks (chain, parsed sequence number, residue
name); a row passing these checks can parse successfully even when neither
identifier scheme is fully populated, its identifiers stored as absent;
and a modified-residue row whose sequence conversions return is never
rejected for lacking a complete identifier scheme. -/
theorem C3_identifier_failure_conditions (attrs row : List String) :
    (∀ nl na, try_parse_int (zipDict attrs row "label_seq_id") = .ok nl →
      try_parse_int (zipDict attrs row "auth_seq_id") = .ok na →
      zipDict attrs row "label_asym_id" = none →
      zipDict attrs row "auth_asym_id" = none →
      parseAtomRow attrs row = .error (.runtimeError "empty chain name")) ∧
    (try_parse_int (zipDict attrs row "label_seq_id") = .ok none →
      try_parse_int (zipDict attrs row "auth_seq_id") = .ok none →
      ¬(zipDict attrs row "label_asym_id" = none ∧
        zipDict attrs row "auth_asym_id" = none) →
      parseAtomRow attrs row = .error (.runtimeError "empty residue number")) ∧
    (∀ nl na, try_parse_int (zipDict attrs row "label_seq_id") = .ok nl →
      try_parse_int (zipDict attrs row "auth_seq_id") = .ok na →
      ¬(zipDict attrs row "label_asym_id" = none ∧
        zipDict attrs row "auth_asym_id" = none) →
      ¬(nl = none ∧ na = none) →
      zipDict attrs row "label_comp_id" = none →
      zipDict attrs row "auth_comp_id" = none →
      parseAtomRow attrs row = .error (.runtimeError "empty residue name")) ∧
    (∀ c nl n nm mo an sx sy sz qx qy qz,
      zipDict attrs row "label_asym_id" = some c →
      try_parse_int (zipDict attrs row "label_seq_id") = .ok nl →
      zipDict attrs row "label_comp_id" = none →
      zipDict attrs row "auth_asym_id" = none →
      try_parse_int (zipDict attrs row "auth_seq_id") = .ok (some n) →
      zipDict attrs row "auth_comp_id" = some nm →
      pyInt? ((zipDict attrs row "pdbx_PDB_model_num").getD "1") = some mo →
      zipDict attrs row "label_atom_id" = some an →
      zipDict attrs row "Cartn_x" = some sx → pyFloat? sx = some qx →
      zipDict attrs row "Cartn_y" = some sy → pyFloat? sy = some qy →
      zipDict attrs row "Cartn_z" = some sz → pyFloat? sz = some qz →
      parseAtomRow attrs row = .ok ⟨none, none, mo, an, qx, qy, qz⟩) ∧
    (∀ (d : ModDict) nl na,
      try_parse_int (zipDict attrs row "label_seq_id") = .ok nl →
      try_parse_int (zipDict attrs row "auth_seq_id") = .ok na →
      ∃ d2, parseModRow attrs d row = .ok d2) := by
  refine ⟨?_, ?_, ?_, ?_, ?_⟩
  · intro nl na h1 h2 h3 h4
    simp [parseAtomRow, h1, h2, h3, h4, except_bind_ok, except_bind_error,
      except_pure_eq, except_throw_eq]
  · intro h1 h2 h3
    simp [parseAtomRow, h1, h2, h3, except_bind_ok, except_bind_error,
      except_pure_eq, except_throw_eq]
  · intro nl na h1 h2 h3 h4 h5 h6
    simp [parseAtomRow, h1, h2, h3, h4, h5, h6, except_bind_ok, except_bind_error,
      except_pure_eq, except_throw_eq]
  · intro c nl n nm mo an sx sy sz qx qy qz hc h1 hlc hac h2 hnm hmo han hx hfx hy hfy hz hfz
    cases nl <;>
      simp [parseAtomRow, hc, h1, hlc, hac, h2, hnm, hmo, han, hx, hfx, hy, hfy, hz, hfz,
        zipDictGet, pyIntE, pyFloatE, except_bind_ok, except_bind_error,
        except_pure_eq, except_throw_eq]
  · intro d nl na h1 h2
    unfold parseModRow
    rw [h1, h2]
    exact ⟨_, rfl⟩

/-- Witness for C3 (amended), applying the chain-absent failure case and
the no-complete-scheme success case at the concrete row of docC3 and at a
modified-residue row. -/
theorem C3_identifier_failure_conditions_witness :
    parseAtomRow tableC3.attrs ["A", "1", "2", "G", "P", "1.0", "2.0", "3.0"]
      = .ok ⟨none, none, 1, "P", ⟨1, 0⟩, ⟨2, 0⟩, ⟨3, 0⟩⟩ ∧
    (∃ d2, parseModRow tableC3.attrs [] ["A", "1", "2", "G", "P", "1.0", "2.0", "3.0"]
      = .ok d2) :=
  ⟨(C3_identifier_failure_conditions tableC3.attrs _).2.2.2.1 "A" (some 1) 2 "G" 1 "P"
      "1.0" "2.0" "3.0" ⟨1, 0⟩ ⟨2, 0⟩ ⟨3, 0⟩ (by decide) (by decide) (by decide) (by decide)
      (by decide) (by decide) (by decide) (by decide) (by decide) (by decide)
      (by decide) (by decide) (by decide) (by decide),
   (C3_identifier_failure_conditions tableC3.attrs _).2.2.2.2 [] (some 1) (some 2)
      (by decide) (by decide)⟩

/-- C5 at the failing input: with the label_seq_id column absent from the
atom table entirely, dict.get returns None, int(None) raises a TypeError
that try_parse_int does not catch, and the whole parse aborts instead of
recording the label scheme as absent. -/
theorem C5_label_seq_column_absent_crashes :
    parse_cif docC5 = .error .typeError := by
  decide

theorem isPrefixOf_head_ne {c d : Char} {p q : List Char} (l : List Char)
    (hne : (d == c) = false)
    (h : List.isPrefixOf (c :: p) l = true) :
    List.isPrefixOf (d :: q) l = false := by
  cases l with
  | nil => simp [List.isPrefixOf] at h
  | cons a l' =>
    simp only [List.isPrefixOf, Bool.and_eq_true, beq_iff_eq] at h
    simp only [List.isPrefixOf, Bool.and_eq_false_iff]
    left
    rw [← h.1]
    exact hne

theorem strStarts_model_false_of_atom (l : String) (h : strStarts l "ATOM" = true) :
    strStarts l "MODEL" = false := by
  have hA : "ATOM".data = 'A' :: ['T', 'O', 'M'] := rfl
  have hM : "MODEL".data = 'M' :: ['O', 'D', 'E', 'L'] := rfl
  unfold strStarts at h ⊢
  rw [hA] at h
  rw [hM]
  exact isPrefixOf_head_ne l.data (by decide) h

theorem strStarts_model_false_of_hetatm (l : String) (h : strStarts l "HETATM" = true) :
    strStarts l "MODEL" = false := by
  have hH : "HETATM".data = 'H' :: ['E', 'T', 'A', 'T', 'M'] := rfl
  have hM : "MODEL".data = 'M' :: ['O', 'D', 'E', 'L'] := rfl
  unfold strStarts at h ⊢
  rw [hH] at h
  rw [hM]
  exact isPrefixOf_head_ne l.data (by decide) h

theorem parseAtomLine_skip (m : Int) (l : String) (c : Char)
    (h16 : l.data.get? 16 = some c) (hc : c ≠ ' ') :
    parseAtomLine m l = .ok none := by
  unfold parseAtomLine pyAt
  rw [h16]
  simp [hc]

theorem parse_pdb_step_skip (st : PdbState) (l : String)
    (h : isSkippedAltLocLine l = true) : parse_pdb_step st l = .ok st := by
  unfold isSkippedAltLocLine at h
  rw [Bool.and_eq_true] at h
  obtain ⟨hstart, h16⟩ := h
  cases h16c : l.data.get? 16 with
  | none => rw [h16c] at h16; simp at h16
  | some c =>
    rw [h16c] at h16
    simp only [decide_eq_true_eq] at h16
    have hskip : parseAtomLine st.model l = .ok none :=
      parseAtomLine_skip st.model l c h16c h16
    have hmodel : strStarts l "MODEL" = false := by
      have hstart2 : strStarts l "ATOM" = true ∨ strStarts l "HETATM" = true := by
        simpa using hstart
      rcases hstart2 with hA | hH
      · exact strStarts_model_false_of_atom l hA
      · exact strStarts_model_false_of_hetatm l hH
    unfold parse_pdb_step
    rw [hmodel]
    simp [hstart, hskip]

theorem parsePdbLoop_filter (lines : List String) : ∀ st : PdbState,
    parsePdbLoop st lines
      = parsePdbLoop st (lines.filter (fun l => !isSkippedAltLocLine l)) := by
  induction lines with
  | nil => intro st; rfl
  | cons l rest ih =>
    intro st
    by_cases h : isSkippedAltLocLine l = true
    · have hf : (l :: rest).filter (fun l => !isSkippedAltLocLine l)
          = rest.filter (fun l => !isSkippedAltLocLine l) := by
        simp [List.filter, h]
      rw [hf]
      simp only [parsePdbLoop]
      rw [parse_pdb_step_skip st l h]
      exact ih st
    · have hb : isSkippedAltLocLine l = false := by
        revert h; cases isSkippedAltLocLine l <;> simp
      have hf : (l :: rest).filter (fun l => !isSkippedAltLocLine l)
          = l :: rest.filter (fun l => !isSkippedAltLocLine l) := by
        simp [List.filter, hb]
      rw [hf]
      simp only [parsePdbLoop]
      cases parse_pdb_step st l with
      | error e => rfl
      | ok st2 => exact ih st2

/-- C6 counterexample: pdbAtomLineAltA carries the alternate-location byte
A, the conventional marker of the first (primary) conformer, yet parse_pdb
skips it and produces no atom at all; the code keeps an ATOM/HETATM line
only when the byte is blank, so no conformer of this position is retained. -/
theorem C6_counterexample :
    pyAt pdbAtomLineAltA 16 = .ok 'A' ∧
    parse_pdb [pdbAtomLineAltA] = .ok ([], []) ∧
    parse_pdb [pdbAtomLineBlank] =
      .ok ([⟨none, some ⟨"A", 1, " ", "G"⟩, 1, "N", ⟨11, 0⟩, ⟨12, 0⟩, ⟨13, 0⟩⟩], []) :=
  ⟨by decide, by decide, by decide⟩

/-- C6 (amended): parse_pdb skips an ATOM/HETATM line exactly when its
alternate-location byte exists and is not blank; removing all such lines
leaves the parse unchanged, so a line with any non-blank alternate-location
indicator, the primary-conformer letter included, contributes no atom to
any residue. -/
theorem C6_nonblank_altloc_contributes_nothing (lines : List String) :
    parse_pdb lines = parse_pdb (lines.filter (fun l => !isSkippedAltLocLine l)) := by
  unfold parse_pdb
  rw [parsePdbLoop_filter lines ⟨1, [], []⟩]

theorem collectPairs_eq_filterMap (structure3d : DssrStructure3D) (ps : List DssrPair) :
    collectPairs structure3d ps = ps.filterMap (specResolvedPair structure3d) := by
  induction ps with
  | nil => rfl
  | cons p rest ih =>
    cases h1 : match_dssr_name_to_residue structure3d p.nt1 <;>
      cases h2 : match_dssr_name_to_residue structure3d p.nt2 <;>
      cases h3 : match_dssr_lw p.lw <;>
      simp [collectPairs, specResolvedPair, h1, h2, h3, ih]

theorem length_filterMap_isSome {α β : Type} (f : α → Option β) (l : List α) :
    (l.filterMap f).length = (l.filter (fun a => (f a).isSome)).length := by
  induction l with
  | nil => rfl
  | cons a l ih =>
    cases h : f a <;> simp [List.filterMap_cons, List.filter, h, ih]

theorem collectStacks_eq_flatten (structure3d : DssrStructure3D) (ss : List DssrStack) :
    collectStacks structure3d ss
      = (ss.map (fun s => adjacentStackings (stackNts structure3d s))).flatten := by
  induction ss with
  | nil => rfl
  | cons s rest ih => simp [collectStacks, ih]

/-- C8: resolution failures are local. The pairing output is exactly the
per-pair resolution filterMap of the declared pairs, so a pair whose
descriptor or geometry code fails to resolve contributes nothing while
every other resolvable pair of the batch still contributes its relation in
order; likewise the stacking output collects the adjacent-resolved
relations of each declared stack independently. -/
theorem C8_lookup_miss_drops_only_offender (structure3d : DssrStructure3D)
    (m : Int) (dssr : DssrJson) :
    (read_secondary_structure_from_dssr structure3d m dssr).base_pairs
      = (selectParams dssr m).1.filterMap (specResolvedPair structure3d) ∧
    (read_secondary_structure_from_dssr structure3d m dssr).base_pairs.length
      = ((selectParams dssr m).1.filter
          (fun p => (specResolvedPair structure3d p).isSome)).length ∧
    (read_secondary_structure_from_dssr structure3d m dssr).stackings
      = ((selectParams dssr m).2.map
          (fun s => adjacentStackings (stackNts structure3d s))).flatten := by
  refine ⟨?_, ?_, ?_⟩
  · exact collectPairs_eq_filterMap structure3d (selectParams dssr m).1
  · rw [show (read_secondary_structure_from_dssr structure3d m dssr).base_pairs
        = collectPairs structure3d (selectParams dssr m).1 from rfl,
      collectPairs_eq_filterMap structure3d (selectParams dssr m).1]
    exact length_filterMap_isSome (specResolvedPair structure3d) (selectParams dssr m).1
  · exact collectStacks_eq_flatten structure3d (selectParams dssr m).2

/-- C9 counterexample: the declared stack A:1.A,X:9.X,B:3.G resolves two
of its three tokens, but the unresolvable middle token breaks adjacency,
so the matcher emits zero stacking relations where the claim promises
k - 1 = 1 for the k = 2 resolved tokens. -/
theorem C9_counterexample :
    ((stackNts s3dAG stackC9).filterMap id).length = 2 ∧
    (read_secondary_structure_from_dssr s3dAG 1 dssrC9).stackings = [] :=
  ⟨by decide, by decide⟩

theorem adjacentResolvedCount_cons2 (a b : Option DssrResidue)
    (rest : List (Option DssrResidue)) :
    adjacentResolvedCount (a :: b :: rest)
      = (if a.isSome && b.isSome then 1 else 0) + adjacentResolvedCount (b :: rest) := by
  unfold adjacentResolvedCount
  simp only [List.tail_cons, List.zip_cons_cons, List.filter_cons]
  cases h : (a.isSome && b.isSome) <;> simp [h, Nat.add_comm]

theorem adjacentStackings_length : ∀ nts : List (Option DssrResidue),
    (adjacentStackings nts).length = adjacentResolvedCount nts
  | [] => rfl
  | [_] => rfl
  | a :: b :: rest => by
    have ih := adjacentStackings_length (b :: rest)
    rw [adjacentResolvedCount_cons2]
    unfold adjacentStackings
    cases a <;> cases b <;> simp [ih, Nat.add_comm]

theorem adjacentStackings_length_all_some : ∀ nts : List (Option DssrResidue),
    (∀ o ∈ nts, o.isSome) → (adjacentStackings nts).length = nts.length - 1
  | [] => fun _ => rfl
  | [_] => fun _ => rfl
  | a :: b :: rest => fun h => by
    have ih := adjacentStackings_length_all_some (b :: rest)
      (fun o ho => h o (List.mem_cons_of_mem a ho))
    have ha : a.isSome := h a (by simp)
    have hb : b.isSome := h b (by simp)
    obtain ⟨x, hx⟩ := Option.isSome_iff_exists.mp ha
    obtain ⟨y, hy⟩ := Option.isSome_iff_exists.mp hb
    subst hx
    subst hy
    unfold adjacentStackings
    simp only [List.length_cons] at ih ⊢
    simp [ih]

/-- C9 (amended): the stack matcher splits the delimited descriptor list,
resolves each token, and emits one stacking relation per adjacent token
position whose both tokens resolved; consequently a stack all of whose k
tokens resolve yields k - 1 relations, while an unresolved token
contributes no relation through itself (and also suppresses the relations
to its neighbours, so scattered resolved tokens yield fewer than k - 1). -/
theorem C9_adjacent_resolved_pairs (structure3d : DssrStructure3D) (s : DssrStack) :
    ((adjacentStackings (stackNts structure3d s)).length
      = adjacentResolvedCount (stackNts structure3d s)) ∧
    ((∀ o ∈ stackNts structure3d s, o.isSome) →
      (adjacentStackings (stackNts structure3d s)).length
        = (stackNts structure3d s).length - 1) :=
  ⟨adjacentStackings_length (stackNts structure3d s),
   fun h => adjacentStackings_length_all_some (stackNts structure3d s) h⟩

/-- Witness for C9 (amended) at a fully resolvable two-token stack. -/
theorem C9_adjacent_resolved_pairs_witness :
    ((adjacentStackings (stackNts s3dAG stackOK)).length
      = adjacentResolvedCount (stackNts s3dAG stackOK)) ∧
    (∀ o ∈ stackNts s3dAG stackOK, o.isSome) ∧
    (adjacentStackings (stackNts s3dAG stackOK)).length
      = (stackNts s3dAG stackOK).length - 1 :=
  ⟨(C9_adjacent_resolved_pairs s3dAG stackOK).1, by decide,
   (C9_adjacent_resolved_pairs s3dAG stackOK).2 (by decide)⟩

theorem length_dropWhile_le (p : Char → Bool) (l : List Char) :
    (l.dropWhile p).length ≤ l.length := by
  induction l with
  | nil => simp
  | cons a t ih =>
    rw [List.dropWhile_cons]
    by_cases h : p a
    · simp only [h, if_true]
      simp only [List.length_cons]
      omega
    · simp [h]

theorem pyStrip_pySlice_length_le (line : String) (a b : Nat) :
    (pyStrip (pySlice line a b)).length ≤ b - a := by
  show (((((line.data.drop a).take (b - a)).dropWhile isPyWs).reverse.dropWhile
    isPyWs).reverse).length ≤ b - a
  rw [List.length_reverse]
  calc (((((line.data.drop a).take (b - a)).dropWhile isPyWs).reverse).dropWhile
        isPyWs).length
      ≤ ((((line.data.drop a).take (b - a)).dropWhile isPyWs).reverse).length :=
        length_dropWhile_le _ _
    _ = (((line.data.drop a).take (b - a)).dropWhile isPyWs).length :=
        List.length_reverse _
    _ ≤ ((line.data.drop a).take (b - a)).length := length_dropWhile_le _ _
    _ ≤ b - a := List.length_take_le _ _

/-- C10: every atom produced from a fixed-column line takes its auth
residue name from the stripped two-byte slice [18:20) of the line, hence
at most two characters; a MODRES entry keys its identifier by the raw,
unstripped three-byte slice [12:15); and a single auth-keyed modification
entry applies to a residue exactly on byte-for-byte key equality, so when
the residue names differ as strings the entry is ignored and the raw
residue name prevails. -/
theorem C10_modres_name_extraction (line modresLine : String) :
    (∀ (m : Int) (a : Atom3D), parseAtomLine m line = .ok (some a) →
      ∃ au, a.auth = some au ∧ au.name = pyStrip (pySlice line 18 20) ∧
        au.name.length ≤ 2) ∧
    (∀ (k : ResidueAuth) (v : String), parseModresLine modresLine = .ok (k, v) →
      k.name = pySlice modresLine 12 15) ∧
    (∀ (au k : ResidueAuth) (v : String),
      (au = k → get_residue_name (some au) none [(some (Sum.inr k), v)] = pyLower v) ∧
      (au.name ≠ k.name →
        get_residue_name (some au) none [(some (Sum.inr k), v)] = au.name)) := by
  refine ⟨?_, ?_, ?_⟩
  · intro m a h
    unfold parseAtomLine at h
    repeat any_goals split at h
    all_goals try simp at h
    subst h
    exact ⟨_, rfl, rfl, pyStrip_pySlice_length_le line 18 20⟩
  · intro k v h
    unfold parseModresLine at h
    repeat any_goals split at h
    all_goals try simp at h
    rw [← h.1]
  · intro au k v
    constructor
    · intro he
      subst he
      simp [get_residue_name, dictGet, authKey]
    · intro hname
      have hne : ¬(k = au) := fun he => hname (congrArg ResidueAuth.name he.symm)
      simp [get_residue_name, dictGet, authKey, labelKey, hne]

/-- Witness for C10 at the concrete blank-altloc atom line and MODRES
line: the atom carries the one-character stripped name G, the MODRES key
the raw name PSU, and the entry does not apply since the names differ. -/
theorem C10_modres_name_extraction_witness :
    (∃ au, (Atom3D.mk none (some ⟨"A", 1, " ", "G"⟩) 1 "N" ⟨11, 0⟩ ⟨12, 0⟩ ⟨13, 0⟩).auth
        = some au ∧
      au.name = pyStrip (pySlice pdbAtomLineBlank 18 20) ∧ au.name.length ≤ 2) ∧
    ((⟨"A", 1, " ", "PSU"⟩ : ResidueAuth).name = pySlice pdbModresLine 12 15) ∧
    get_residue_name (some ⟨"A", 1, " ", "G"⟩) none
      [(some (Sum.inr ⟨"A", 1, " ", "PSU"⟩), "U")] = "G" :=
  ⟨(C10_modres_name_extraction pdbAtomLineBlank pdbModresLine).1 1 _ (by decide),
   (C10_modres_name_extraction pdbAtomLineBlank pdbModresLine).2.1
      ⟨"A", 1, " ", "PSU"⟩ "U" (by decide),
   ((C10_modres_name_extraction pdbAtomLineBlank pdbModresLine).2.2
      ⟨"A", 1, " ", "G"⟩ ⟨"A", 1, " ", "PSU"⟩ "U").2 (by decide)⟩

theorem map_card_mkResidues (modified : ModDict) :
    ∀ (runs : List (List Atom3D)) (idx : Nat),
      (mkResidues modified idx runs).map (fun r => r.atoms.card)
        = runs.map (fun run => run.toFinset.card) := by
  intro runs
  induction runs with
  | nil => intro idx; rfl
  | cons r rest ih => intro idx; simp [mkResidues, mkResidue, ih]

theorem sumAtoms_group_atoms (l : List Atom3D) (modified : ModDict) (hnd : l.Nodup) :
    sumAtoms (group_atoms l modified) = l.length := by
  unfold sumAtoms
  rw [group_atoms_residues_eq, map_card_mkResidues]
  have hruns : ∀ r ∈ runsSimple l, r.Nodup := by
    have hjoin : (runsSimple l).flatten.Nodup := by
      rw [flatten_runsSimple]; exact hnd
    exact fun r hr => (List.nodup_flatten.mp hjoin).1 r hr
  have hmap : (runsSimple l).map (fun run => run.toFinset.card)
      = (runsSimple l).map List.length := by
    apply List.map_congr_left
    intro r hr
    exact List.toFinset_card_of_nodup (hruns r hr)
  rw [hmap, ← List.length_flatten, flatten_runsSimple]

theorem pyIntE_ok_iff (s : String) (n : Int) :
    pyIntE s = .ok n ↔ pyInt? s = some n := by
  unfold pyIntE
  cases h : pyInt? s <;> simp [h]

theorem parseAtomRow_model (attrs r : List String) (a : Atom3D)
    (h : parseAtomRow attrs r = .ok a) :
    rowModelValue attrs r = some a.model := by
  unfold parseAtomRow at h
  repeat any_goals split at h
  all_goals try simp at h
  repeat any_goals split at h
  all_goals try simp at h
  all_goals subst h
  all_goals simp_all [rowModelValue, pyIntE_ok_iff]

theorem parseAtomRows_filter_count (attrs : List String) :
    ∀ (rows : List (List String)) (atoms : List Atom3D),
      parseAtomRows attrs rows = .ok atoms →
      ∀ p : Atom3D → Bool,
        (atoms.filter p).length
          = (rows.filter (fun r => match parseAtomRow attrs r with
              | .ok a => p a
              | .error _ => false)).length := by
  intro rows
  induction rows with
  | nil =>
    intro atoms h p
    simp [parseAtomRows] at h
    subst h
    rfl
  | cons r rest ih =>
    intro atoms h p
    unfold parseAtomRows at h
    cases hr : parseAtomRow attrs r with
    | error e => rw [hr] at h; simp at h
    | ok a =>
      rw [hr] at h
      cases hrest : parseAtomRows attrs rest with
      | error e => rw [hrest] at h; simp at h
      | ok as =>
        rw [hrest] at h
        simp at h
        subst h
        rw [List.filter_cons, List.filter_cons]
        have hpred : (match parseAtomRow attrs r with
            | .ok a => p a
            | .error _ => false) = p a := by rw [hr]
        rw [hpred]
        cases hp : p a <;> simp [hp, ih as hrest p]

theorem parseAtomRows_all_ok (attrs : List String) :
    ∀ (rows : List (List String)) (atoms : List Atom3D),
      parseAtomRows attrs rows = .ok atoms →
      ∀ r ∈ rows, ∃ a, parseAtomRow attrs r = .ok a := by
  intro rows
  induction rows with
  | nil => intro atoms h r hr; simp at hr
  | cons r0 rest ih =>
    intro atoms h r hr
    unfold parseAtomRows at h
    cases hr0 : parseAtomRow attrs r0 with
    | error e => rw [hr0] at h; simp at h
    | ok a =>
      rw [hr0] at h
      cases hrest : parseAtomRows attrs rest with
      | error e => rw [hrest] at h; simp at h
      | ok as =>
        rcases List.mem_cons.mp hr with hr | hr
        · exact ⟨a, hr ▸ hr0⟩
        · exact ih as hrest r hr

theorem parse_cif_atoms (data : List CifData) (atoms : List Atom3D) (modified : ModDict)
    (hp : parse_cif data = .ok (atoms, modified)) :
    parseAtomRows (cifAtomAttrs data) (cifAtomRows data) = .ok atoms := by
  cases data with
  | nil =>
    simp [parse_cif] at hp
    simp [cifAtomAttrs, cifAtomRows, parseAtomRows, hp.1]
  | cons d rest =>
    cases hsite : d.atom_site with
    | none =>
      simp only [parse_cif, hsite] at hp
      repeat any_goals split at hp
      all_goals try simp at hp
      all_goals simp [cifAtomAttrs, cifAtomRows, hsite, parseAtomRows]
      all_goals simp_all
    | some t =>
      simp only [parse_cif, hsite] at hp
      cases hrows : parseAtomRows t.attrs t.rows with
      | error e => rw [hrows] at hp; simp at hp
      | ok atoms2 =>
        rw [hrows] at hp
        repeat any_goals split at hp
        all_goals try simp at hp
        all_goals simp [cifAtomAttrs, cifAtomRows, hsite, hrows]
        all_goals simp_all

/-- C7: for a tag-based document whose parse succeeds and whose
model-filtered atoms are pairwise distinct (the well-formedness of the
input), the built structure is the grouping of the model-filtered atoms
and the total atom count over its residue atom sets equals the number of
atom-table rows whose recorded model number matches the requested model. -/
theorem C7_atom_count_conservation (data : List CifData) (m : Int)
    (atoms : List Atom3D) (modified : ModDict)
    (hp : parse_cif data = .ok (atoms, modified))
    (hwf : (atoms.filter (fun a => decide (a.model = m))).Nodup) :
    read_3d_structure_cif data m
      = .ok (group_atoms (atoms.filter (fun a => decide (a.model = m))) modified) ∧
    sumAtoms (group_atoms (atoms.filter (fun a => decide (a.model = m))) modified)
      = ((cifAtomRows data).filter
          (fun r => decide (rowModelValue (cifAtomAttrs data) r = some m))).length := by
  constructor
  · unfold read_3d_structure_cif
    rw [hp]
  · rw [sumAtoms_group_atoms _ modified hwf]
    have hrows := parse_cif_atoms data atoms modified hp
    rw [parseAtomRows_filter_count (cifAtomAttrs data) (cifAtomRows data) atoms hrows
      (fun a => decide (a.model = m))]
    apply congrArg List.length
    apply List.filter_congr
    intro r hr
    obtain ⟨a, ha⟩ :=
      parseAtomRows_all_ok (cifAtomAttrs data) (cifAtomRows data) atoms hrows r hr
    have hmo := parseAtomRow_model (cifAtomAttrs data) r a ha
    rw [ha, hmo]
    simp

/-- Witness for C7 at docC7: two rows, one in model 1 and one in model 2;
requesting model 1 keeps one atom and one matching row. -/
theorem C7_atom_count_conservation_witness :
    parse_cif docC7 = .ok (atomsC7, []) ∧
    (atomsC7.filter (fun a => decide (a.model = 1))).Nodup ∧
    sumAtoms (group_atoms (atomsC7.filter (fun a => decide (a.model = 1))) [])
      = ((cifAtomRows docC7).filter
          (fun r => decide (rowModelValue (cifAtomAttrs docC7) r = some 1))).length :=
  ⟨by decide, by decide,
   (C7_atom_count_conservation docC7 1 atomsC7 [] (by decide) (by decide)).2⟩
